import Mathlib

set_option maxHeartbeats 1000000

/-!
Shallow embedding of the `barrier` Go package (src/barrier.go).

The package implements a cyclic barrier: a `Barrier` struct holding
`n int64` (party size), `count int64` (remaining arrivals), a `done chan bool`
(per-round release signal, replaced on every reset) and an `abort chan bool`
(permanent abort signal, closed by `Abort`).

Modelling choices, read against the Go source:
  * `GState` is the shared struct. Channels are modelled by generation
    numbers: `gen` counts how many resets have happened; a `done` channel
    captured at generation `d` is closed exactly when `d < gen`
    (`signalClosed`).  The `abort` channel is `abortClosed : Bool`.
  * Go's `close` on an already-closed channel panics; `abortGo` records that
    as `crashed := true`, mirroring `func (b *Barrier) Abort() { close(b.abort) }`.
  * Each call to `Await` is one thread, a `TState` program counter walking
    through the statements of `Await`: the `aborted()` entry check, the
    locked decrement-and-capture, the `count < 0` misuse branch
    (`b.Abort(); return ErrBarrierMisused`), the `count > 0` branch
    (`b.wait(done)`, i.e. `select` on the captured `done` and on `abort`,
    with the re-check of `aborted()` in the `done` case), and the
    `count == 0` branch (run the callback, then `reset()`).
  * A callback value `cb : Option (Option GoErr)` is `nil` (`none`) or a
    function returning the error `r` (`some r`); running it is the
    `decZero` step and its result is `cb.join`.
  * `int64` arithmetic is modelled by `Int`: the counter starts at the party
    size and every reachable value stays within a handful of units of it,
    far from the `int64` wrap-around.
  * Interleaving: `sysStep` lets any thread take its next atomic step, or an
    external `Abort()` call happen; `Reach` is its reflexive-transitive
    closure.  Atomic blocks match the lock scopes of the source
    (`Lock; count--; capture; Unlock`  and  `Lock; close(done); fresh done;
    count = n; Unlock`), and the lock-free reads (`aborted()`, `select`)
    are their own steps.
-/

namespace BarrierGo

/-- Errors of the package: `ErrBarrierAborted`, `ErrBarrierMisused`, and
arbitrary user errors a callback may return. -/
inductive GoErr where
  | barrierAborted : GoErr
  | barrierMisused : GoErr
  | user : Nat → GoErr
deriving DecidableEq

/-- The shared `Barrier` struct: `n`, `count`, the current `done` channel
(represented by its generation `gen`), whether `abort` is closed, and whether
a runtime panic (`close` of a closed channel) has occurred. -/
structure GState where
  n : Int
  count : Int
  gen : Nat
  abortClosed : Bool
  crashed : Bool
deriving DecidableEq

/-- `New(n)`: fresh barrier with `count = n`, fresh channels, no abort. -/
def New (n : Int) : GState :=
  { n := n, count := n, gen := 0, abortClosed := false, crashed := false }

/-- `Abort()`, i.e. `close(b.abort)`: closes the abort channel; if it is
already closed this is Go's `close` of a closed channel, a runtime panic,
recorded as `crashed`. -/
def abortGo (s : GState) : GState :=
  if s.abortClosed then { s with crashed := true }
  else { s with abortClosed := true }

/-- A `done` channel captured at generation `d` has been closed (its round
was released) exactly when a reset has replaced it. -/
def signalClosed (s : GState) (d : Nat) : Prop := d < s.gen

/-- Program counter of one `Await(cb)` call.
`ready cb`: about to run the `aborted()` entry check.
`checked cb`: entry check passed, about to do the locked decrement.
`decremented cb c d`: holds the captured `count` value `c` and captured
`done` generation `d`.
`waiting d`: blocked in `wait` on captured generation `d`.
`resetting r d`: last arriver, callback already run with result `r`, about
to call `reset()`.
`returned r`: `Await` returned `r` (`none` is a `nil` error).
`crashed`: the call panicked (double `close`). -/
inductive TState where
  | ready : Option (Option GoErr) → TState
  | checked : Option (Option GoErr) → TState
  | decremented : Option (Option GoErr) → Int → Nat → TState
  | waiting : Nat → TState
  | resetting : Option GoErr → Nat → TState
  | returned : Option GoErr → TState
  | crashed : TState
deriving DecidableEq

/-- One atomic step of a single `Await` call against the shared state,
statement by statement from the Go source of `Await`, `aborted`, `wait`
and `reset`. -/
inductive step : GState → TState → GState → TState → Prop where
  | checkAborted (s : GState) (cb : Option (Option GoErr))
      (h : s.abortClosed = true) :
      step s (.ready cb) s (.returned (some .barrierAborted))
  | checkPass (s : GState) (cb : Option (Option GoErr))
      (h : s.abortClosed = false) :
      step s (.ready cb) s (.checked cb)
  | decStep (s : GState) (cb : Option (Option GoErr)) :
      step s (.checked cb) { s with count := s.count - 1 }
        (.decremented cb (s.count - 1) s.gen)
  | decNeg (s : GState) (cb : Option (Option GoErr)) (c : Int) (d : Nat)
      (hc : c < 0) (h : s.abortClosed = false) :
      step s (.decremented cb c d) (abortGo s)
        (.returned (some .barrierMisused))
  | decNegCrash (s : GState) (cb : Option (Option GoErr)) (c : Int) (d : Nat)
      (hc : c < 0) (h : s.abortClosed = true) :
      step s (.decremented cb c d) (abortGo s) .crashed
  | decPos (s : GState) (cb : Option (Option GoErr)) (c : Int) (d : Nat)
      (hc : 0 < c) :
      step s (.decremented cb c d) s (.waiting d)
  | decZero (s : GState) (cb : Option (Option GoErr)) (d : Nat) :
      step s (.decremented cb 0 d) s (.resetting cb.join d)
  | wakeDone (s : GState) (d : Nat) (h : d < s.gen) :
      step s (.waiting d) s
        (.returned (if s.abortClosed then some .barrierAborted else none))
  | wakeAbort (s : GState) (d : Nat) (h : s.abortClosed = true) :
      step s (.waiting d) s (.returned (some .barrierAborted))
  | resetStep (s : GState) (r : Option GoErr) (d : Nat) :
      step s (.resetting r d) { s with gen := s.gen + 1, count := s.n }
        (.returned r)

/-- A configuration: the shared struct plus the list of `Await` calls. -/
structure Cfg where
  g : GState
  ts : List TState
deriving DecidableEq

/-- System step: some `Await` call takes its next atomic step, or an
external `Abort()` call runs. -/
inductive sysStep : Cfg → Cfg → Prop where
  | thread (g : GState) (ts : List TState) (i : Nat) (h : i < ts.length)
      (s' : GState) (t' : TState) :
      step g (ts.get ⟨i, h⟩) s' t' →
      sysStep ⟨g, ts⟩ ⟨s', ts.set i t'⟩
  | abortCall (c : Cfg) : sysStep c ⟨abortGo c.g, c.ts⟩

/-- Reachability of configurations under arbitrary interleavings. -/
def Reach : Cfg → Cfg → Prop := Relation.ReflTransGen sysStep

/-- Initial configuration: a barrier fresh from `New n` and a population of
`Await` calls, one per intended callback, none of them started yet. -/
def initCfg (n : Int) (cbs : List (Option (Option GoErr))) : Cfg :=
  ⟨New n, cbs.map TState.ready⟩

/-- An `Await` call that has decremented the counter below zero and has not
yet reacted to it. -/
def isNegCapture : TState → Bool
  | .decremented _ v _ => decide (v < 0)
  | _ => false

/-- Captured decrement values never exceed `n - 1`. -/
def capBound (n : Int) : TState → Prop
  | .decremented _ v _ => v ≤ n - 1
  | _ => True

/-- A last arriver exists only for a positive party size. -/
def resBound (n : Int) : TState → Prop
  | .resetting _ _ => 1 ≤ n
  | _ => True

/-- For `n ≤ 0`, the states an `Await` call can ever be in: every capture is
negative, no call waits, resets or returns `nil`. -/
def negOnly : TState → Prop
  | .ready _ => True
  | .checked _ => True
  | .decremented _ v _ => v < 0
  | .waiting _ => False
  | .resetting _ _ => False
  | .returned r => r ≠ none
  | .crashed => True

/-- The inductive invariant of the system. -/
def Inv (c : Cfg) : Prop :=
  c.g.count ≤ c.g.n
  ∧ (c.g.abortClosed = false →
      (0 ≤ c.g.count ∨ c.g.n ≤ 0 ∨ ∃ t ∈ c.ts, isNegCapture t = true))
  ∧ (∀ t ∈ c.ts, capBound c.g.n t)
  ∧ (∀ t ∈ c.ts, resBound c.g.n t)
  ∧ (c.g.n ≤ 0 → ∀ t ∈ c.ts, negOnly t)

section ListHelpers

variable {α : Type _}

lemma memOfSet {a b : α} : ∀ {l : List α} {i : Nat}, a ∈ l.set i b → a ∈ l ∨ a = b := by
  intro l
  induction l with
  | nil => intro i h; exact absurd h (by simp)
  | cons x xs ih =>
      intro i h
      cases i with
      | zero =>
          rcases List.mem_cons.1 h with h1 | h1
          · exact Or.inr h1
          · exact Or.inl (List.mem_cons_of_mem _ h1)
      | succ j =>
          rcases List.mem_cons.1 h with h1 | h1
          · exact Or.inl (h1 ▸ List.mem_cons_self _ _)
          · rcases ih h1 with h2 | h2
            · exact Or.inl (List.mem_cons_of_mem _ h2)
            · exact Or.inr h2

lemma memSetSelf (b : α) : ∀ (l : List α) (i : Nat), i < l.length → b ∈ l.set i b := by
  intro l
  induction l with
  | nil => intro i h; exact absurd h (by simp)
  | cons x xs ih =>
      intro i h
      cases i with
      | zero => exact List.mem_cons_self _ _
      | succ j => exact List.mem_cons_of_mem _ (ih j (by simpa using h))

lemma memSetOther {a b : α} : ∀ {l : List α} {i : Nat} (h : i < l.length),
    a ∈ l → a ≠ l.get ⟨i, h⟩ → a ∈ l.set i b := by
  intro l
  induction l with
  | nil => intro i h; exact absurd h (by simp)
  | cons x xs ih =>
      intro i h hmem hne
      cases i with
      | zero =>
          rcases List.mem_cons.1 hmem with h1 | h1
          · exact absurd h1 hne
          · exact List.mem_cons_of_mem _ h1
      | succ j =>
          rcases List.mem_cons.1 hmem with h1 | h1
          · exact h1 ▸ List.mem_cons_self _ _
          · exact List.mem_cons_of_mem _ (ih (by simpa using h) h1 hne)

lemma forallMemSet {P : α → Prop} {l : List α} {i : Nat} {b : α}
    (h : ∀ t ∈ l, P t) (hb : P b) : ∀ t ∈ l.set i b, P t := by
  intro t ht
  rcases memOfSet ht with h1 | h1
  · exact h t h1
  · exact h1 ▸ hb

end ListHelpers

/-- `abortGo` leaves `n`, `count`, `gen` unchanged and never reopens the
abort channel. -/
lemma abortGo_fields (s : GState) :
    (abortGo s).n = s.n ∧ (abortGo s).count = s.count ∧
    (abortGo s).gen = s.gen ∧ (abortGo s).abortClosed = true := by
  unfold abortGo
  by_cases h : s.abortClosed
  · simp [h]
  · simp [h]

/-- No step of an `Await` call ever writes the `n` field. -/
lemma step_n_eq {s : GState} {t : TState} {s' : GState} {t' : TState}
    (h : step s t s' t') : s'.n = s.n := by
  cases h with
  | decNeg cb c d hc hab => exact (abortGo_fields s).1
  | decNegCrash cb c d hc hab => exact (abortGo_fields s).1
  | _ => rfl

/-- No step ever reopens the abort channel. -/
lemma step_abort_mono {s : GState} {t : TState} {s' : GState} {t' : TState}
    (h : step s t s' t') (hab : s.abortClosed = true) :
    s'.abortClosed = true := by
  cases h with
  | checkPass cb h => exact absurd hab (by simp [h])
  | decNeg cb c d hc h => exact (abortGo_fields s).2.2.2
  | decNegCrash cb c d hc h => exact (abortGo_fields s).2.2.2
  | _ => exact hab

/-- System steps preserve `n` and the abort signal, monotonically. -/
lemma sysStep_n_eq {c c' : Cfg} (h : sysStep c c') : c'.g.n = c.g.n := by
  cases h with
  | thread g ts i hi s' t' hstep => exact step_n_eq hstep
  | abortCall c => exact (abortGo_fields c.g).1

lemma sysStep_abort_mono {c c' : Cfg} (h : sysStep c c')
    (hab : c.g.abortClosed = true) : c'.g.abortClosed = true := by
  cases h with
  | thread g ts i hi s' t' hstep => exact step_abort_mono hstep hab
  | abortCall c => exact (abortGo_fields c.g).2.2.2

lemma reach_n_eq {c c' : Cfg} (h : Reach c c') : c'.g.n = c.g.n := by
  induction h with
  | refl => rfl
  | tail hr hstep ih => exact (sysStep_n_eq hstep).trans ih

lemma reach_abort_mono {c c' : Cfg} (h : Reach c c')
    (hab : c.g.abortClosed = true) : c'.g.abortClosed = true := by
  induction h with
  | refl => exact hab
  | tail hr hstep ih => exact sysStep_abort_mono hstep ih

/-- The invariant is preserved by every system step. -/
lemma inv_step {c c' : Cfg} (hs : sysStep c c') (hinv : Inv c) : Inv c' := by
  unfold Inv at hinv ⊢
  cases hs with
  | abortCall c =>
      obtain ⟨hA, hB, hC, hD, hE⟩ := hinv
      obtain ⟨hn, hcount, hgen, hab⟩ := abortGo_fields c.g
      refine ⟨?_, ?_, ?_, ?_, ?_⟩
      · rw [hn, hcount]; exact hA
      · intro h; rw [hab] at h; cases h
      · intro t ht; rw [hn]; exact hC t ht
      · intro t ht; rw [hn]; exact hD t ht
      · intro h t ht; rw [hn] at h; exact hE h t ht
  | thread g ts i hi s' t' hstep =>
      obtain ⟨hA, hB, hC, hD, hE⟩ := hinv
      have hA : g.count ≤ g.n := hA
      have hB : g.abortClosed = false →
          (0 ≤ g.count ∨ g.n ≤ 0 ∨ ∃ t ∈ ts, isNegCapture t = true) := hB
      have hC : ∀ t ∈ ts, capBound g.n t := hC
      have hD : ∀ t ∈ ts, resBound g.n t := hD
      have hE : g.n ≤ 0 → ∀ t ∈ ts, negOnly t := hE
      have hmem : ts.get ⟨i, hi⟩ ∈ ts := List.get_mem ts i hi
      generalize hget : ts.get ⟨i, hi⟩ = t0 at hstep hmem
      cases hstep with
      | checkAborted cb hab =>
          refine ⟨hA, ?_, forallMemSet hC trivial, forallMemSet hD trivial, ?_⟩
          · intro h; rw [hab] at h; cases h
          · intro h; exact forallMemSet (hE h) (by simp [negOnly])
      | checkPass cb hab =>
          refine ⟨hA, ?_, forallMemSet hC trivial, forallMemSet hD trivial, ?_⟩
          · intro h
            rcases hB h with h1 | h1 | ⟨t, hw1, hw2⟩
            · exact Or.inl h1
            · exact Or.inr (Or.inl h1)
            · refine Or.inr (Or.inr ⟨t, memSetOther hi hw1 ?_, hw2⟩)
              rw [hget]
              intro hc; rw [hc] at hw2; simp [isNegCapture] at hw2
          · intro h; exact forallMemSet (hE h) trivial
      | decStep cb =>
          refine ⟨?_, ?_, ?_, forallMemSet hD trivial, ?_⟩
          · show g.count - 1 ≤ g.n
            omega
          · intro h
            rcases le_or_lt 0 (g.count - 1) with h1 | h1
            · exact Or.inl h1
            · refine Or.inr (Or.inr ⟨.decremented cb (g.count - 1) g.gen,
                memSetSelf _ ts i hi, ?_⟩)
              show decide (g.count - 1 < 0) = true
              simp only [decide_eq_true_eq]
              omega
          · refine forallMemSet hC ?_
            show g.count - 1 ≤ g.n - 1
            omega
          · intro h
            have h2 : g.n ≤ 0 := h
            intro t ht
            rcases memOfSet ht with h1 | h1
            · exact hE h2 t h1
            · subst h1
              show g.count - 1 < 0
              omega
      | decNeg cb cc d hc hab =>
          obtain ⟨hn, hcount, hgen, hab2⟩ := abortGo_fields g
          refine ⟨?_, ?_, ?_, ?_, ?_⟩
          · rw [hn, hcount]; exact hA
          · intro h; rw [hab2] at h; cases h
          · intro t ht; rw [hn]
            rcases memOfSet ht with h1 | h1
            · exact hC t h1
            · subst h1; trivial
          · intro t ht; rw [hn]
            rcases memOfSet ht with h1 | h1
            · exact hD t h1
            · subst h1; trivial
          · intro h t ht; rw [hn] at h
            rcases memOfSet ht with h1 | h1
            · exact hE h t h1
            · subst h1; simp [negOnly]
      | decNegCrash cb cc d hc hab =>
          obtain ⟨hn, hcount, hgen, hab2⟩ := abortGo_fields g
          refine ⟨?_, ?_, ?_, ?_, ?_⟩
          · rw [hn, hcount]; exact hA
          · intro h; rw [hab2] at h; cases h
          · intro t ht; rw [hn]
            rcases memOfSet ht with h1 | h1
            · exact hC t h1
            · subst h1; trivial
          · intro t ht; rw [hn]
            rcases memOfSet ht with h1 | h1
            · exact hD t h1
            · subst h1; trivial
          · intro h t ht; rw [hn] at h
            rcases memOfSet ht with h1 | h1
            · exact hE h t h1
            · subst h1; trivial
      | decPos cb cc d hc =>
          refine ⟨hA, ?_, forallMemSet hC trivial, forallMemSet hD trivial, ?_⟩
          · intro h
            rcases hB h with h1 | h1 | ⟨t, hw1, hw2⟩
            · exact Or.inl h1
            · exact Or.inr (Or.inl h1)
            · refine Or.inr (Or.inr ⟨t, memSetOther hi hw1 ?_, hw2⟩)
              rw [hget]
              intro hcon; rw [hcon] at hw2; simp [isNegCapture] at hw2; omega
          · intro h; exfalso
            have := hE h _ hmem
            simp only [negOnly] at this
            omega
      | decZero cb d =>
          refine ⟨hA, ?_, forallMemSet hC trivial, ?_, ?_⟩
          · intro h
            rcases hB h with h1 | h1 | ⟨t, hw1, hw2⟩
            · exact Or.inl h1
            · exact Or.inr (Or.inl h1)
            · refine Or.inr (Or.inr ⟨t, memSetOther hi hw1 ?_, hw2⟩)
              rw [hget]
              intro hcon; rw [hcon] at hw2; simp [isNegCapture] at hw2
          · refine forallMemSet hD ?_
            have hcap : (0:Int) ≤ g.n - 1 := hC _ hmem
            show (1:Int) ≤ g.n
            omega
          · intro h; exfalso
            have := hE h _ hmem
            simp only [negOnly] at this
            omega
      | wakeDone d hd =>
          refine ⟨hA, ?_, forallMemSet hC trivial, forallMemSet hD trivial, ?_⟩
          · intro h
            rcases hB h with h1 | h1 | ⟨t, hw1, hw2⟩
            · exact Or.inl h1
            · exact Or.inr (Or.inl h1)
            · refine Or.inr (Or.inr ⟨t, memSetOther hi hw1 ?_, hw2⟩)
              rw [hget]
              intro hcon; rw [hcon] at hw2; simp [isNegCapture] at hw2
          · intro h; exfalso
            exact hE h _ hmem
      | wakeAbort d hab =>
          refine ⟨hA, ?_, forallMemSet hC trivial, forallMemSet hD trivial, ?_⟩
          · intro h; rw [hab] at h; cases h
          · intro h; exfalso
            exact hE h _ hmem
      | resetStep r d =>
          have hres : (1:Int) ≤ g.n := hD _ hmem
          refine ⟨?_, ?_, forallMemSet hC trivial, forallMemSet hD trivial, ?_⟩
          · show g.n ≤ g.n
            exact le_refl _
          · intro h
            exact Or.inl (show (0:Int) ≤ g.n by omega)
          · intro h
            have h2 : g.n ≤ 0 := h
            exact absurd hres (by omega)

/-- The invariant holds in every initial configuration. -/
lemma inv_init (n : Int) (cbs : List (Option (Option GoErr))) :
    Inv (initCfg n cbs) := by
  unfold Inv initCfg New
  refine ⟨le_refl _, ?_, ?_, ?_, ?_⟩
  · intro _
    rcases le_or_lt 0 n with h | h
    · exact Or.inl h
    · exact Or.inr (Or.inl (le_of_lt h))
  · intro t ht
    rcases List.mem_map.1 ht with ⟨cb, _, hcb⟩
    subst hcb; trivial
  · intro t ht
    rcases List.mem_map.1 ht with ⟨cb, _, hcb⟩
    subst hcb; trivial
  · intro _ t ht
    rcases List.mem_map.1 ht with ⟨cb, _, hcb⟩
    subst hcb; trivial

/-- The invariant holds in every reachable configuration. -/
lemma inv_reach {n : Int} {cbs : List (Option (Option GoErr))} {c : Cfg}
    (h : Reach (initCfg n cbs) c) : Inv c := by
  induction h with
  | refl => exact inv_init n cbs
  | tail hr hstep ih => exact inv_step hstep ih

/-- Packaging of `sysStep.thread` convenient for concrete traces. -/
lemma stepAt (g : GState) (ts : List TState) (i : Nat) (h : i < ts.length)
    {s' : GState} {t t' : TState} (hget : ts.get ⟨i, h⟩ = t)
    (hstep : step g t s' t') : sysStep ⟨g, ts⟩ ⟨s', ts.set i t'⟩ := by
  subst hget
  exact sysStep.thread g ts i h s' t' hstep

/-- Claim C1: a call whose decrement yields exactly zero is forced through
exactly one path: it runs the callback (the `decZero` step, producing the
callback's own result `cb.join`, `nil` for a `nil` callback), then performs
`reset`, and `Await` returns that result verbatim — whatever the shared
state, in particular even when the abort signal is already set. -/
theorem C1_last_arriver :
    (∀ (s : GState) (cb : Option (Option GoErr)) (d : Nat)
        (s' : GState) (t' : TState),
      step s (.decremented cb 0 d) s' t' →
      s' = s ∧ t' = .resetting cb.join d)
    ∧ (∀ (s : GState) (r : Option GoErr) (d : Nat) (s' : GState) (t' : TState),
      step s (.resetting r d) s' t' → t' = .returned r)
    ∧ (∀ (s1 : GState) (cb : Option (Option GoErr)) (d : Nat)
        (s2 : GState) (t2 : TState) (s3 : GState) (t3 : TState),
      step s1 (.decremented cb 0 d) s2 t2 → step s2 t2 s3 t3 →
      t3 = .returned cb.join) := by
  refine ⟨?_, ?_, ?_⟩
  · intro s cb d s' t' h
    cases h with
    | decNeg cb c d hc hab => exact absurd hc (by omega)
    | decNegCrash cb c d hc hab => exact absurd hc (by omega)
    | decPos cb c d hc => exact absurd hc (by omega)
    | decZero cb d => exact ⟨rfl, rfl⟩
  · intro s r d s' t' h
    cases h with
    | resetStep r d => rfl
  · intro s1 cb d s2 t2 s3 t3 h1 h2
    cases h1 with
    | decNeg cb c d hc hab => exact absurd hc (by omega)
    | decNegCrash cb c d hc hab => exact absurd hc (by omega)
    | decPos cb c d hc => exact absurd hc (by omega)
    | decZero cb d =>
        cases h2 with
        | resetStep r d => rfl

/-- Witness for C1: a last arriver with callback result `user 7`, in a state
whose abort signal is set, still returns `user 7`. -/
theorem C1_last_arriver_witness :
    TState.returned ((some (some (GoErr.user 7)) : Option (Option GoErr)).join)
      = TState.returned (some (GoErr.user 7)) := by
  have h := C1_last_arriver.2.2 ⟨2, 0, 0, true, false⟩
    (some (some (GoErr.user 7))) 0 ⟨2, 0, 0, true, false⟩
    (.resetting (some (GoErr.user 7)) 0) ⟨2, 2, 1, true, false⟩
    (.returned (some (GoErr.user 7)))
    (step.decZero _ _ _) (step.resetStep _ _ _)
  exact h.symm

/-- Claim C3: a call to `Await` on a barrier whose abort signal is set
returns `ErrBarrierAborted` at once, changing nothing (that step exists and
is the only one available), and the abort signal is never unset by any later
activity, so this holds forever. -/
theorem C3_aborted_entry :
    (∀ (s : GState) (cb : Option (Option GoErr)) (s' : GState) (t' : TState),
      s.abortClosed = true → step s (.ready cb) s' t' →
      s' = s ∧ t' = .returned (some .barrierAborted))
    ∧ (∀ (s : GState) (cb : Option (Option GoErr)), s.abortClosed = true →
      step s (.ready cb) s (.returned (some .barrierAborted)))
    ∧ (∀ (c c' : Cfg), Reach c c' → c.g.abortClosed = true →
      c'.g.abortClosed = true) := by
  refine ⟨?_, ?_, ?_⟩
  · intro s cb s' t' hab h
    cases h with
    | checkAborted cb h => exact ⟨rfl, rfl⟩
    | checkPass cb h => rw [hab] at h; cases h
  · intro s cb hab
    exact step.checkAborted s cb hab
  · intro c c' h hab
    exact reach_abort_mono h hab

/-- Witness for C3: on an aborted one-party barrier the entry step returns
the abort failure and leaves the state untouched. -/
theorem C3_aborted_entry_witness :
    (⟨1, 1, 0, true, false⟩ : GState) = ⟨1, 1, 0, true, false⟩ ∧
    TState.returned (some GoErr.barrierAborted)
      = TState.returned (some GoErr.barrierAborted) :=
  C3_aborted_entry.1 ⟨1, 1, 0, true, false⟩ none _ _ rfl
    (step.checkAborted _ none rfl)

/-- Claim C5: a non-last arriver blocked in `wait` can move only by waking:
either through its captured round signal (possible exactly when that signal
has been opened), returning the abort failure if the abort signal is set at
that moment and `nil` otherwise, or through the abort signal (possible
exactly when it is set), returning the abort failure; with neither signal
open it is stuck. -/
theorem C5_waiter :
    (∀ (s : GState) (d : Nat) (s' : GState) (t' : TState),
      step s (.waiting d) s' t' →
      s' = s ∧
      ((d < s.gen ∧
          t' = .returned (if s.abortClosed then some .barrierAborted else none))
        ∨ (s.abortClosed = true ∧ t' = .returned (some .barrierAborted))))
    ∧ (∀ (s : GState) (d : Nat), ¬ d < s.gen → s.abortClosed = false →
      ∀ (s' : GState) (t' : TState), ¬ step s (.waiting d) s' t') := by
  refine ⟨?_, ?_⟩
  · intro s d s' t' h
    cases h with
    | wakeDone d hd => exact ⟨rfl, Or.inl ⟨hd, rfl⟩⟩
    | wakeAbort d hab => exact ⟨rfl, Or.inr ⟨hab, rfl⟩⟩
  · intro s d hd hab s' t' h
    cases h with
    | wakeDone d h => exact hd h
    | wakeAbort d h => rw [hab] at h; cases h

/-- Witness for C5: a waiter of the released round `0`, waking via the round
signal with the abort signal unset, returns `nil`. -/
theorem C5_waiter_witness :
    (⟨2, 2, 1, false, false⟩ : GState) = ⟨2, 2, 1, false, false⟩ ∧
    ((0 < 1 ∧
        TState.returned none = TState.returned
          (if (⟨2, 2, 1, false, false⟩ : GState).abortClosed
            then some GoErr.barrierAborted else none))
      ∨ ((⟨2, 2, 1, false, false⟩ : GState).abortClosed = true ∧
        TState.returned none = TState.returned (some GoErr.barrierAborted))) :=
  C5_waiter.1 ⟨2, 2, 1, false, false⟩ 0 _ _
    (step.wakeDone ⟨2, 2, 1, false, false⟩ 0 (by decide))

/-- Claim C6: the reset step of a last arriver, in one atomic step, opens
the round signal that was current for the completed round, replaces it by a
fresh signal that has not been opened, and restores the counter to exactly
the party size `n`, leaving the abort signal alone. -/
theorem C6_reset :
    ∀ (s : GState) (r : Option GoErr) (d : Nat) (s' : GState) (t' : TState),
      step s (.resetting r d) s' t' →
      s' = { s with gen := s.gen + 1, count := s.n } ∧
      t' = .returned r ∧
      signalClosed s' s.gen ∧
      ¬ signalClosed s' s'.gen ∧
      s'.count = s.n ∧
      s'.abortClosed = s.abortClosed := by
  intro s r d s' t' h
  cases h with
  | resetStep r d =>
      refine ⟨rfl, rfl, ?_, ?_, rfl, rfl⟩
      · show s.gen < s.gen + 1
        omega
      · show ¬ s.gen + 1 < s.gen + 1
        omega

/-- Witness for C6: resetting a two-party barrier after its first round
closes signal `0`, leaves signal `1` unopened and restores the counter
to `2`. -/
theorem C6_reset_witness :
    (⟨2, 2, 1, false, false⟩ : GState)
      = { (⟨2, 0, 0, false, false⟩ : GState) with gen := 1, count := 2 } ∧
    TState.returned none = TState.returned none ∧
    signalClosed ⟨2, 2, 1, false, false⟩ 0 ∧
    ¬ signalClosed ⟨2, 2, 1, false, false⟩ 1 ∧
    (⟨2, 2, 1, false, false⟩ : GState).count = 2 ∧
    (⟨2, 2, 1, false, false⟩ : GState).abortClosed
      = (⟨2, 0, 0, false, false⟩ : GState).abortClosed :=
  C6_reset ⟨2, 0, 0, false, false⟩ none 0 _ _ (step.resetStep _ none 0)

/-- Claim C9: no step of any operation writes the `n` field; every
configuration reachable from `New n` still has party size `n`. -/
theorem C9_partySize_fixed :
    (∀ (s : GState) (t : TState) (s' : GState) (t' : TState),
      step s t s' t' → s'.n = s.n)
    ∧ (∀ (c c' : Cfg), sysStep c c' → c'.g.n = c.g.n)
    ∧ (∀ (n : Int) (cbs : List (Option (Option GoErr))) (c' : Cfg),
      Reach (initCfg n cbs) c' → c'.g.n = n) := by
  refine ⟨?_, ?_, ?_⟩
  · intro s t s' t' h
    exact step_n_eq h
  · intro c c' h
    exact sysStep_n_eq h
  · intro n cbs c' h
    exact reach_n_eq h

/-- Witness for C9: the initial configuration of `New 5` has party size
`5`. -/
theorem C9_partySize_fixed_witness : (initCfg 5 [none, none]).g.n = 5 :=
  C9_partySize_fixed.2.2 5 [none, none] _ Relation.ReflTransGen.refl

/-- Claim C4: the first `Abort()` on a fresh barrier sets the abort signal
without a panic, but a second `Abort()` is Go's `close` of an already-closed
channel: it panics (`crashed`) instead of being an idempotent no-op. -/
theorem C4_abort_not_idempotent :
    (abortGo (New 1)).abortClosed = true ∧
    (abortGo (New 1)).crashed = false ∧
    (abortGo (abortGo (New 1))).crashed = true := by
  refine ⟨by decide, by decide, by decide⟩

/-- Claim C2: an interleaving of three `Await(nil)` calls on `New 1` in
which all three pass the entry check before any decrement.  The calls
capture `0`, `-1` and `-2`; the `-1` call closes the abort channel and
returns `ErrBarrierMisused`, and then the `-2` call — whose decrement also
yielded a negative value — panics on `close` of the closed abort channel
(`crashed`) instead of returning `ErrBarrierMisused`. -/
theorem C2_second_overarrival_crashes :
    Reach (initCfg 1 [none, none, none])
      ⟨⟨1, -2, 0, true, true⟩,
        [.decremented none 0 0, .returned (some .barrierMisused), .crashed]⟩ ∧
    (⟨1, -2, 0, true, true⟩ : GState).crashed = true := by
  refine ⟨?_, rfl⟩
  have s1 : sysStep (initCfg 1 [none, none, none])
      ⟨⟨1, 1, 0, false, false⟩, [.checked none, .ready none, .ready none]⟩ :=
    stepAt _ _ 0 (by decide) rfl (step.checkPass _ none rfl)
  have s2 : sysStep
      ⟨⟨1, 1, 0, false, false⟩, [.checked none, .ready none, .ready none]⟩
      ⟨⟨1, 1, 0, false, false⟩, [.checked none, .checked none, .ready none]⟩ :=
    stepAt _ _ 1 (by decide) rfl (step.checkPass _ none rfl)
  have s3 : sysStep
      ⟨⟨1, 1, 0, false, false⟩, [.checked none, .checked none, .ready none]⟩
      ⟨⟨1, 1, 0, false, false⟩, [.checked none, .checked none, .checked none]⟩ :=
    stepAt _ _ 2 (by decide) rfl (step.checkPass _ none rfl)
  have s4 : sysStep
      ⟨⟨1, 1, 0, false, false⟩, [.checked none, .checked none, .checked none]⟩
      ⟨⟨1, 0, 0, false, false⟩,
        [.decremented none 0 0, .checked none, .checked none]⟩ :=
    stepAt _ _ 0 (by decide) rfl (step.decStep _ none)
  have s5 : sysStep
      ⟨⟨1, 0, 0, false, false⟩,
        [.decremented none 0 0, .checked none, .checked none]⟩
      ⟨⟨1, -1, 0, false, false⟩,
        [.decremented none 0 0, .decremented none (-1) 0, .checked none]⟩ :=
    stepAt _ _ 1 (by decide) rfl (step.decStep _ none)
  have s6 : sysStep
      ⟨⟨1, -1, 0, false, false⟩,
        [.decremented none 0 0, .decremented none (-1) 0, .checked none]⟩
      ⟨⟨1, -2, 0, false, false⟩,
        [.decremented none 0 0, .decremented none (-1) 0,
          .decremented none (-2) 0]⟩ :=
    stepAt _ _ 2 (by decide) rfl (step.decStep _ none)
  have s7 : sysStep
      ⟨⟨1, -2, 0, false, false⟩,
        [.decremented none 0 0, .decremented none (-1) 0,
          .decremented none (-2) 0]⟩
      ⟨⟨1, -2, 0, true, false⟩,
        [.decremented none 0 0, .returned (some .barrierMisused),
          .decremented none (-2) 0]⟩ :=
    stepAt _ _ 1 (by decide) rfl (step.decNeg _ none (-1) 0 (by decide) rfl)
  have s8 : sysStep
      ⟨⟨1, -2, 0, true, false⟩,
        [.decremented none 0 0, .returned (some .barrierMisused),
          .decremented none (-2) 0]⟩
      ⟨⟨1, -2, 0, true, true⟩,
        [.decremented none 0 0, .returned (some .barrierMisused), .crashed]⟩ :=
    stepAt _ _ 2 (by decide) rfl (step.decNegCrash _ none (-2) 0 (by decide) rfl)
  exact .head s1 (.head s2 (.head s3 (.head s4 (.head s5 (.head s6
    (.head s7 (.head s8 .refl)))))))

/-- Claim C7, counterexample: two concurrent `Await(nil)` calls on `New 1`
both pass the entry check and both decrement; the reachable state has
`count = -1` with the abort signal still unset, so `0 ≤ remaining` does not
hold in every non-aborted reachable state. -/
theorem C7_cex :
    Reach (initCfg 1 [none, none])
      ⟨⟨1, -1, 0, false, false⟩,
        [.decremented none 0 0, .decremented none (-1) 0]⟩ ∧
    (⟨1, -1, 0, false, false⟩ : GState).abortClosed = false ∧
    (⟨1, -1, 0, false, false⟩ : GState).count < 0 := by
  refine ⟨?_, rfl, by decide⟩
  have s1 : sysStep (initCfg 1 [none, none])
      ⟨⟨1, 1, 0, false, false⟩, [.checked none, .ready none]⟩ :=
    stepAt _ _ 0 (by decide) rfl (step.checkPass _ none rfl)
  have s2 : sysStep
      ⟨⟨1, 1, 0, false, false⟩, [.checked none, .ready none]⟩
      ⟨⟨1, 1, 0, false, false⟩, [.checked none, .checked none]⟩ :=
    stepAt _ _ 1 (by decide) rfl (step.checkPass _ none rfl)
  have s3 : sysStep
      ⟨⟨1, 1, 0, false, false⟩, [.checked none, .checked none]⟩
      ⟨⟨1, 0, 0, false, false⟩, [.decremented none 0 0, .checked none]⟩ :=
    stepAt _ _ 0 (by decide) rfl (step.decStep _ none)
  have s4 : sysStep
      ⟨⟨1, 0, 0, false, false⟩, [.decremented none 0 0, .checked none]⟩
      ⟨⟨1, -1, 0, false, false⟩,
        [.decremented none 0 0, .decremented none (-1) 0]⟩ :=
    stepAt _ _ 1 (by decide) rfl (step.decStep _ none)
  exact .head s1 (.head s2 (.head s3 (.head s4 .refl)))

/-- Claim C7, amended: in every reachable non-aborted configuration the
counter is at most the party size; and if moreover the party size is
positive and no in-flight call holds a negative captured decrement (no
over-arrival is in its misuse window), the counter is also non-negative. -/
theorem C7_amended :
    ∀ (n : Int) (cbs : List (Option (Option GoErr))) (c : Cfg),
      Reach (initCfg n cbs) c →
      c.g.abortClosed = false →
      c.g.count ≤ n ∧
      (1 ≤ n → (∀ t ∈ c.ts, isNegCapture t = false) → 0 ≤ c.g.count) := by
  intro n cbs c h hab
  obtain ⟨hA, hB, _, _, _⟩ := inv_reach h
  have hn : c.g.n = n := reach_n_eq h
  constructor
  · rw [← hn]
    exact hA
  · intro hpos hno
    rcases hB hab with h1 | h1 | ⟨t, ht, hneg⟩
    · exact h1
    · rw [hn] at h1
      exact absurd hpos (by omega)
    · rw [hno t ht] at hneg
      cases hneg

/-- Witness for the amended C7: the fresh configuration of `New 1` is not
aborted, holds no negative capture, and indeed has a non-negative counter. -/
theorem C7_amended_witness : 0 ≤ (initCfg 1 [none]).g.count :=
  (C7_amended 1 [none] _ Relation.ReflTransGen.refl rfl).2 (by decide)
    (by decide)

/-- Claim C8, counterexample: on `New 3`, calls 0 and 1 both wait on the
round-`0` signal and call 2 completes the round and resets.  Call 0 wakes
with the abort signal unset and returns `nil`; `Abort()` then runs; call 1
wakes from the same round signal and returns `ErrBarrierAborted`.  Two
waiters of the same round thus observe different verdicts. -/
theorem C8_cex :
    Reach (initCfg 3 [none, none, none])
      ⟨⟨3, 0, 0, false, false⟩, [.waiting 0, .waiting 0, .resetting none 0]⟩ ∧
    Reach ⟨⟨3, 0, 0, false, false⟩,
        [.waiting 0, .waiting 0, .resetting none 0]⟩
      ⟨⟨3, 3, 1, true, false⟩,
        [.returned none, .returned (some .barrierAborted), .returned none]⟩ := by
  constructor
  · have s1 : sysStep (initCfg 3 [none, none, none])
        ⟨⟨3, 3, 0, false, false⟩, [.checked none, .ready none, .ready none]⟩ :=
      stepAt _ _ 0 (by decide) rfl (step.checkPass _ none rfl)
    have s2 : sysStep
        ⟨⟨3, 3, 0, false, false⟩, [.checked none, .ready none, .ready none]⟩
        ⟨⟨3, 2, 0, false, false⟩,
          [.decremented none 2 0, .ready none, .ready none]⟩ :=
      stepAt _ _ 0 (by decide) rfl (step.decStep _ none)
    have s3 : sysStep
        ⟨⟨3, 2, 0, false, false⟩,
          [.decremented none 2 0, .ready none, .ready none]⟩
        ⟨⟨3, 2, 0, false, false⟩, [.waiting 0, .ready none, .ready none]⟩ :=
      stepAt _ _ 0 (by decide) rfl (step.decPos _ none 2 0 (by decide))
    have s4 : sysStep
        ⟨⟨3, 2, 0, false, false⟩, [.waiting 0, .ready none, .ready none]⟩
        ⟨⟨3, 2, 0, false, false⟩, [.waiting 0, .checked none, .ready none]⟩ :=
      stepAt _ _ 1 (by decide) rfl (step.checkPass _ none rfl)
    have s5 : sysStep
        ⟨⟨3, 2, 0, false, false⟩, [.waiting 0, .checked none, .ready none]⟩
        ⟨⟨3, 1, 0, false, false⟩,
          [.waiting 0, .decremented none 1 0, .ready none]⟩ :=
      stepAt _ _ 1 (by decide) rfl (step.decStep _ none)
    have s6 : sysStep
        ⟨⟨3, 1, 0, false, false⟩,
          [.waiting 0, .decremented none 1 0, .ready none]⟩
        ⟨⟨3, 1, 0, false, false⟩, [.waiting 0, .waiting 0, .ready none]⟩ :=
      stepAt _ _ 1 (by decide) rfl (step.decPos _ none 1 0 (by decide))
    have s7 : sysStep
        ⟨⟨3, 1, 0, false, false⟩, [.waiting 0, .waiting 0, .ready none]⟩
        ⟨⟨3, 1, 0, false, false⟩, [.waiting 0, .waiting 0, .checked none]⟩ :=
      stepAt _ _ 2 (by decide) rfl (step.checkPass _ none rfl)
    have s8 : sysStep
        ⟨⟨3, 1, 0, false, false⟩, [.waiting 0, .waiting 0, .checked none]⟩
        ⟨⟨3, 0, 0, false, false⟩,
          [.waiting 0, .waiting 0, .decremented none 0 0]⟩ :=
      stepAt _ _ 2 (by decide) rfl (step.decStep _ none)
    have s9 : sysStep
        ⟨⟨3, 0, 0, false, false⟩,
          [.waiting 0, .waiting 0, .decremented none 0 0]⟩
        ⟨⟨3, 0, 0, false, false⟩,
          [.waiting 0, .waiting 0, .resetting none 0]⟩ :=
      stepAt _ _ 2 (by decide) rfl (step.decZero _ none 0)
    exact .head s1 (.head s2 (.head s3 (.head s4 (.head s5 (.head s6
      (.head s7 (.head s8 (.head s9 .refl))))))))
  · have s10 : sysStep
        ⟨⟨3, 0, 0, false, false⟩,
          [.waiting 0, .waiting 0, .resetting none 0]⟩
        ⟨⟨3, 3, 1, false, false⟩, [.waiting 0, .waiting 0, .returned none]⟩ :=
      stepAt _ _ 2 (by decide) rfl (step.resetStep _ none 0)
    have s11 : sysStep
        ⟨⟨3, 3, 1, false, false⟩, [.waiting 0, .waiting 0, .returned none]⟩
        ⟨⟨3, 3, 1, false, false⟩,
          [.returned none, .waiting 0, .returned none]⟩ :=
      stepAt _ _ 0 (by decide) rfl (step.wakeDone _ 0 (by decide))
    have s12 : sysStep
        ⟨⟨3, 3, 1, false, false⟩, [.returned none, .waiting 0, .returned none]⟩
        ⟨⟨3, 3, 1, true, false⟩,
          [.returned none, .waiting 0, .returned none]⟩ :=
      sysStep.abortCall _
    have s13 : sysStep
        ⟨⟨3, 3, 1, true, false⟩, [.returned none, .waiting 0, .returned none]⟩
        ⟨⟨3, 3, 1, true, false⟩,
          [.returned none, .returned (some .barrierAborted), .returned none]⟩ :=
      stepAt _ _ 1 (by decide) rfl (step.wakeDone _ 0 (by decide))
    exact .head s10 (.head s11 (.head s12 (.head s13 .refl)))

/-- Claim C8, amended: each waiter's verdict is fixed by the abort signal at
its own wake step — `nil` exactly when the abort signal is unset then, the
abort failure exactly when it is set; waiters of one round therefore agree
whenever the abort signal does not change between their wakes. -/
theorem C8_amended :
    ∀ (s : GState) (d : Nat) (s' : GState) (t' : TState),
      step s (.waiting d) s' t' →
      t' = .returned (if s.abortClosed then some .barrierAborted else none) := by
  intro s d s' t' h
  cases h with
  | wakeDone d hd => rfl
  | wakeAbort d hab => rw [hab]; rfl

/-- Witness for the amended C8: a waiter waking through the abort signal in
an aborted state gets the abort verdict. -/
theorem C8_amended_witness :
    TState.returned (some GoErr.barrierAborted)
      = TState.returned (if (⟨2, 1, 0, true, false⟩ : GState).abortClosed
          then some GoErr.barrierAborted else none) :=
  C8_amended ⟨2, 1, 0, true, false⟩ 0 _ _ (step.wakeAbort _ 0 rfl)

/-- Claim C10: `New` accepts any integer, and for `n ≤ 0` the first
`Await cb` (with the abort signal still unset) passes the entry check,
decrements to `n - 1 < 0`, closes the abort channel and returns
`ErrBarrierMisused`; moreover no configuration reachable from such a
barrier contains a call that returned `nil` or one performing a reset — the
barrier can never complete a round nor report success. -/
theorem C10_nonpositive_size :
    ∀ (n : Int) (cb : Option (Option GoErr)), n ≤ 0 →
      (New n).count = n ∧
      (New n).abortClosed = false ∧
      step (New n) (.ready cb) (New n) (.checked cb) ∧
      step (New n) (.checked cb) { New n with count := n - 1 }
        (.decremented cb (n - 1) 0) ∧
      n - 1 < 0 ∧
      step { New n with count := n - 1 } (.decremented cb (n - 1) 0)
        (abortGo { New n with count := n - 1 })
        (.returned (some .barrierMisused)) ∧
      (abortGo { New n with count := n - 1 }).abortClosed = true ∧
      (∀ (cbs : List (Option (Option GoErr))) (c : Cfg),
        Reach (initCfg n cbs) c → ∀ t ∈ c.ts,
          t ≠ .returned none ∧ ∀ (r : Option GoErr) (d : Nat),
            t ≠ .resetting r d) := by
  intro n cb hn
  refine ⟨rfl, rfl, step.checkPass _ cb rfl, step.decStep (New n) cb, by omega,
    step.decNeg _ cb (n - 1) 0 (by omega) rfl, ?_, ?_⟩
  · exact (abortGo_fields _).2.2.2
  · intro cbs c h t ht
    obtain ⟨_, _, _, _, hE⟩ := inv_reach h
    have hcn : c.g.n = n := reach_n_eq h
    have hneg := hE (by rw [hcn]; exact hn) t ht
    constructor
    · intro hcon
      rw [hcon] at hneg
      exact hneg rfl
    · intro r d hcon
      rw [hcon] at hneg
      exact hneg

/-- Witness for C10: on `New 0` the first call's misuse step returns
`ErrBarrierMisused` after closing the abort channel. -/
theorem C10_nonpositive_size_witness :
    step { New 0 with count := (0:Int) - 1 }
      (.decremented none ((0:Int) - 1) 0)
      (abortGo { New 0 with count := (0:Int) - 1 })
      (.returned (some .barrierMisused)) :=
  (C10_nonpositive_size 0 none (by decide)).2.2.2.2.2.1

end BarrierGo
